import Mathlib

/-!
# Verification of `StartupManager.py`

A shallow embedding of the cross-platform startup-entry manager
(`src/StartupManager.py`).  Python strings are modelled as `List Char`
(`Str`), the filesystem as an explicit record of directories and files,
and the external collaborators (`powershell`, `launchctl`) as flags in an
`Env` record saying whether each invocation succeeds.  Side effects are
recorded in an event trace so that ordering properties (write before
chmod before loader; unload before delete) are directly expressible.

Terminology map between the spec and the code:
* WindowsFamily / MacFamily / LinuxFamily — `platform.system()` equal to
  `"Windows"` / `"Darwin"` / `"Linux"`;
* `UnsupportedPlatform` — Python `NotImplementedError`;
* `PathNotFound` — Python `FileNotFoundError`.
-/

/-- A Python string, modelled as its list of characters. -/
abbrev Str := List Char

namespace SM

/-! ## Line splitting and fixed-format parsing helpers -/

/-- Split a string at every newline character (the splitter used to state
the artifact round-trip properties; `"a\nb"` ↦ `["a","b"]`, a trailing
newline yields a trailing empty line). -/
def splitNl : Str → List Str
  | [] => [[]]
  | c :: cs => if c = '\n' then [] :: splitNl cs else (splitNl cs).modifyHead (c :: ·)

/-- Remove the given leading characters, or fail. -/
def stripPre : Str → Str → Option Str
  | [], s => some s
  | _ :: _, [] => none
  | p :: ps, c :: cs => if p = c then stripPre ps cs else none

/-- Remove the given trailing characters, or fail. -/
def stripSuf (suf s : Str) : Option Str :=
  match stripPre suf.reverse s.reverse with
  | some r => some r.reverse
  | none => none

/-- Join lines, terminating each with a newline (the shape of the Python
multi-line f-strings, which end in `\n`). -/
def joinLines (lines : List Str) : Str :=
  lines.foldr (fun l acc => l ++ '\n' :: acc) []

theorem splitNl_nil : splitNl [] = [[]] := rfl

theorem splitNl_newline_cons (r : Str) : splitNl ('\n' :: r) = [] :: splitNl r := by
  simp [splitNl]

theorem splitNl_append_newline (x r : Str) (hx : '\n' ∉ x) :
    splitNl (x ++ '\n' :: r) = x :: splitNl r := by
  induction x with
  | nil => simp [splitNl]
  | cons c cs ih =>
      have hc : c ≠ '\n' := fun h => hx (h ▸ List.mem_cons_self c cs)
      have hcs : '\n' ∉ cs := fun h => hx (List.mem_cons_of_mem c h)
      simp [splitNl, hc, ih hcs]

theorem splitNl_joinLines (lines : List Str) (h : ∀ l ∈ lines, '\n' ∉ l) :
    splitNl (joinLines lines) = lines ++ [[]] := by
  induction lines with
  | nil => simp [joinLines, splitNl]
  | cons l ls ih =>
      have hl : '\n' ∉ l := h l (List.mem_cons_self l ls)
      have hls : ∀ x ∈ ls, '\n' ∉ x := fun x hx => h x (List.mem_cons_of_mem l hx)
      simp only [joinLines, List.foldr_cons]
      rw [splitNl_append_newline l _ hl]
      simpa [joinLines] using congrArg (l :: ·) (ih hls)

theorem stripPre_append (p r : Str) : stripPre p (p ++ r) = some r := by
  induction p with
  | nil => rfl
  | cons c cs ih => simp [stripPre, ih]

theorem stripSuf_append (suf r : Str) : stripSuf suf (r ++ suf) = some r := by
  simp [stripSuf, List.reverse_append, stripPre_append]

/-! ## POSIX path normalisation (`os.path`)

`StartupManager.__init__` stores `os.path.abspath(app_path)`.  We embed the
POSIX flavour of `os.path`: `abspath(p) = normpath(join(cwd, p))`, where
`join` returns `p` unchanged when it is absolute, and `normpath` collapses
empty / `.` / `..` components exactly as `posixpath.normpath` does
(including the special treatment of exactly two leading slashes). -/

/-- Split a string at every occurrence of the character `sep`
(`str.split(sep)` in Python). -/
def splitCh (sep : Char) : Str → List Str
  | [] => [[]]
  | c :: cs => if c = sep then [] :: splitCh sep cs else (splitCh sep cs).modifyHead (c :: ·)

/-- `os.path.isabs`: a POSIX path is absolute iff it starts with `/`. -/
def isAbs (p : Str) : Bool :=
  p.head? = some '/'

/-- `startswith`: does `pre` occur at the start of `p`? -/
def startsWith (pre p : Str) : Bool :=
  stripPre pre p ≠ none

/-- The component loop of `posixpath.normpath`: skip `''` and `'.'`;
append `'..'` when it cannot cancel (relative path with empty stack, or the
stack already ends in `'..'`); otherwise pop.  `acc` is the reversed stack
of accepted components. -/
def normComps (slashes : Nat) : List Str → List Str → List Str
  | acc, [] => acc.reverse
  | acc, comp :: rest =>
      if comp = [] ∨ comp = ['.'] then normComps slashes acc rest
      else if comp ≠ ['.', '.'] ∨ (slashes = 0 ∧ acc = []) ∨
          (acc.headD [] = ['.', '.'] ∧ acc ≠ []) then
        normComps slashes (comp :: acc) rest
      else
        match acc with
        | _ :: acc' => normComps slashes acc' rest
        | [] => normComps slashes [] rest

/-- Join components with `/` (Python `sep.join(comps)`). -/
def joinComps : List Str → Str
  | [] => []
  | [c] => c
  | c :: rest => c ++ '/' :: joinComps rest

/-- The number of leading slashes kept by `posixpath.normpath`: `2` when the
path starts with exactly two slashes (a POSIX special case), `1` for any
other absolute path, `0` otherwise. -/
def initialSlashes (p : Str) : Nat :=
  if isAbs p then
    if startsWith ['/', '/'] p ∧ ¬ startsWith ['/', '/', '/'] p then 2 else 1
  else 0

/-- `posixpath.normpath`. -/
def normpath (p : Str) : Str :=
  if p = [] then ['.']
  else if List.replicate (initialSlashes p) '/' ++
      joinComps (normComps (initialSlashes p) [] (splitCh '/' p)) = [] then ['.']
  else List.replicate (initialSlashes p) '/' ++
      joinComps (normComps (initialSlashes p) [] (splitCh '/' p))

/-- `posixpath.join` restricted to two arguments, as used by `abspath`. -/
def joinPath (a b : Str) : Str :=
  if isAbs b then b
  else if a = [] ∨ a.getLast? = some '/' then a ++ b
  else a ++ '/' :: b

/-- `os.path.abspath` (POSIX): resolve against the current working
directory, then normalise. -/
def abspath (cwd p : Str) : Str :=
  if isAbs p then normpath p else normpath (joinPath cwd p)

theorem isAbs_ne_nil (p : Str) (h : isAbs p = true) : p ≠ [] := by
  intro he; subst he; simp [isAbs] at h

theorem initialSlashes_pos (p : Str) (h : isAbs p = true) : 0 < initialSlashes p := by
  rw [initialSlashes, if_pos h]
  split <;> omega

theorem isAbs_normpath (p : Str) (h : isAbs p = true) : isAbs (normpath p) = true := by
  have hne : p ≠ [] := isAbs_ne_nil p h
  have hpos := initialSlashes_pos p h
  obtain ⟨k, hk⟩ : ∃ k, initialSlashes p = k + 1 := ⟨initialSlashes p - 1, by omega⟩
  rw [normpath, if_neg hne, hk]
  simp [List.replicate_succ, isAbs]

theorem isAbs_append (a x : Str) (h : isAbs a = true) : isAbs (a ++ x) = true := by
  have hne : a ≠ [] := isAbs_ne_nil a h
  rw [isAbs] at h ⊢
  rcases a with _ | ⟨c, cs⟩
  · exact absurd rfl hne
  · simpa using h

theorem isAbs_abspath (cwd p : Str) (hcwd : isAbs cwd = true) :
    isAbs (abspath cwd p) = true := by
  rw [abspath]
  by_cases hp : isAbs p = true
  · rw [if_pos hp]; exact isAbs_normpath p hp
  · have hp' : isAbs p = false := by simpa using hp
    have hj : isAbs (joinPath cwd p) = true := by
      rw [joinPath, hp']
      simp only [Bool.false_eq_true, if_false]
      split
      · exact isAbs_append cwd p hcwd
      · exact isAbs_append cwd ('/' :: p) hcwd
    rw [if_neg (by simp [hp'])]
    exact isAbs_normpath _ hj

/-! ## Artifact codec

The literal artifact contents rendered by `enable`
(`src/StartupManager.py` lines 106–120 for the macOS plist, lines 133–139
for the Linux desktop entry).  Each Python multi-line f-string is written
here line by line, joined by `joinLines` (every line terminated by `\n`,
exactly the shape of the f-string). -/

/-- The lines of the macOS `plist_content` f-string. -/
def plistLines (name path : Str) : List Str :=
  [("<?xml version=\"1.0\" encoding=\"UTF-8\"?>").data,
   ("<!DOCTYPE plist PUBLIC \"-//Apple//DTD PLIST 1.0//EN\" \"http://www.apple.com/DTDs/PropertyList-1.0.dtd\">").data,
   ("<plist version=\"1.0\">").data,
   ("<dict>").data,
   ("    <key>Label</key>").data,
   ("    <string>").data ++ name ++ ("</string>").data,
   ("    <key>ProgramArguments</key>").data,
   ("    <array>").data,
   ("        <string>").data ++ path ++ ("</string>").data,
   ("    </array>").data,
   ("    <key>RunAtLoad</key>").data,
   ("    <true/>").data,
   ("</dict>").data,
   ("</plist>").data]

/-- `plist_content` from `enable` (macOS branch). -/
def plistContent (name path : Str) : Str :=
  joinLines (plistLines name path)

/-- The lines of the Linux `desktop_content` f-string. -/
def desktopLines (name path : Str) : List Str :=
  [("[Desktop Entry]").data,
   ("Type=Application").data,
   ("Name=").data ++ name,
   ("Exec=").data ++ path,
   ("Terminal=false").data,
   ("X-GNOME-Autostart-enabled=true").data]

/-- `desktop_content` from `enable` (Linux branch). -/
def desktopContent (name path : Str) : Str :=
  joinLines (desktopLines name path)

/-- Parse a property-list document of exactly the shape produced by
`enable`: the fixed XML prologue, a dict with exactly the three keys
`Label`, `ProgramArguments` (a one-element array) and `RunAtLoad` (a
boolean leaf), in that order.  Returns the label, the program-argument
list and the `RunAtLoad` value. -/
def parsePlist (s : Str) : Option (Str × List Str × Bool) :=
  match splitNl s with
  | [h1, h2, h3, h4, k1, v1, k2, a1, v2, a2, k3, v3, d1, p1, tail] =>
      if h1 = ("<?xml version=\"1.0\" encoding=\"UTF-8\"?>").data ∧
          h2 = ("<!DOCTYPE plist PUBLIC \"-//Apple//DTD PLIST 1.0//EN\" \"http://www.apple.com/DTDs/PropertyList-1.0.dtd\">").data ∧
          h3 = ("<plist version=\"1.0\">").data ∧ h4 = ("<dict>").data ∧
          k1 = ("    <key>Label</key>").data ∧
          k2 = ("    <key>ProgramArguments</key>").data ∧
          a1 = ("    <array>").data ∧ a2 = ("    </array>").data ∧
          k3 = ("    <key>RunAtLoad</key>").data ∧
          d1 = ("</dict>").data ∧ p1 = ("</plist>").data ∧ tail = [] then
        match stripPre (("    <string>").data) v1, stripPre (("        <string>").data) v2 with
        | some r1, some r2 =>
            match stripSuf (("</string>").data) r1, stripSuf (("</string>").data) r2 with
            | some label, some arg =>
                if v3 = ("    <true/>").data then some (label, [arg], true)
                else if v3 = ("    <false/>").data then some (label, [arg], false)
                else none
            | _, _ => none
        | _, _ => none
      else none
  | _ => none

/-- Parse a desktop-entry document of exactly the shape produced by
`enable`: the `[Desktop Entry]` header and the five `key=value` lines, in
order.  Returns the `Name` and `Exec` values. -/
def parseDesktop (s : Str) : Option (Str × Str) :=
  match splitNl s with
  | [h, t, n, e, term, g, tail] =>
      if h = ("[Desktop Entry]").data ∧ t = ("Type=Application").data ∧
          term = ("Terminal=false").data ∧
          g = ("X-GNOME-Autostart-enabled=true").data ∧ tail = [] then
        match stripPre (("Name=").data) n, stripPre (("Exec=").data) e with
        | some nv, some ev => some (nv, ev)
        | _, _ => none
      else none
  | _ => none

/-! ## Host state and effect model

The filesystem is a record of directory paths and `path ↦ file data`
bindings (an association list whose write operation replaces any existing
binding, matching one-file-per-path OS semantics).  The `Env` record holds
the ambient host data read by the code — `platform.system()`, `Path.home()`,
the `%APPDATA%` expansion, the working directory `os.getcwd()` used by
`os.path.abspath` — plus one success flag per fallible OS facility:
directory creation, file write, `chmod`, and the three external process
invocations (`powershell`, `launchctl load`, `launchctl unload`).

Every mutating action and every external process invocation is appended to
an event trace, so that ordering properties are stated on traces.  An exec
event is recorded when the process is invoked, whether or not it succeeds;
write/chmod/remove events are recorded only on success. -/

/-- A file: its content and, if `chmod` has been applied, its mode
(`none` = whatever default mode the OS gave the file at creation). -/
structure FileData where
  content : Str
  mode : Option Nat
  deriving DecidableEq, Repr

/-- The filesystem: existing directories and files. -/
structure Fs where
  dirs : List Str
  files : List (Str × FileData)
  deriving DecidableEq, Repr

/-- An external process invocation. -/
inductive Cmd where
  /-- The PowerShell script of `enable` (Windows): create a shortcut at
  the given path whose `TargetPath` is the given target. -/
  | powershellShortcut (shortcut target : Str)
  /-- `launchctl load <plist>`. -/
  | launchctlLoad (p : Str)
  /-- `launchctl unload <plist>`. -/
  | launchctlUnload (p : Str)
  deriving DecidableEq, Repr

/-- A recorded side effect. -/
inductive Event where
  /-- A successful `open(p, 'w'); f.write(c)`. -/
  | write (p c : Str)
  /-- A successful `os.chmod(p, mode)`. -/
  | chmod (p : Str) (mode : Nat)
  /-- A `subprocess.run(...)` invocation (recorded even when it fails). -/
  | exec (c : Cmd)
  /-- A successful `os.remove(p)`. -/
  | remove (p : Str)
  deriving DecidableEq, Repr

/-- Filesystem plus the trace of side effects performed so far. -/
structure World where
  fs : Fs
  events : List Event
  deriving DecidableEq, Repr

/-- The ambient host environment. -/
structure Env where
  /-- The value returned by `platform.system()`. -/
  system : String
  /-- `Path.home()`. -/
  home : Str
  /-- The expansion of `%APPDATA%`. -/
  appdata : Str
  /-- `os.getcwd()`, used by `os.path.abspath`. -/
  cwd : Str
  /-- Does `os.makedirs` succeed when it must create a directory? -/
  mkdirOk : Bool
  /-- Does opening a file for writing succeed? -/
  writeOk : Bool
  /-- Does `os.chmod` succeed (beyond the file existing)? -/
  chmodOk : Bool
  /-- Does the PowerShell shortcut-creation invocation succeed? -/
  psOk : Bool
  /-- Does `launchctl load` succeed? -/
  loadOk : Bool
  /-- Does `launchctl unload` succeed? -/
  unloadOk : Bool
  deriving DecidableEq, Repr

/-- A raised Python exception. -/
inductive PyErr where
  /-- `NotImplementedError` (the spec's `UnsupportedPlatform`),
  raised by `_get_startup_location`. -/
  | notImplemented (sys : String)
  /-- `FileNotFoundError` (the spec's `PathNotFound`). -/
  | fileNotFound (p : Str)
  /-- An `OSError` from a filesystem primitive. -/
  | osError
  /-- `subprocess.CalledProcessError` from a `check=True` run. -/
  | calledProcessError
  deriving DecidableEq, Repr

/-- The message text of an exception, as interpolated into the
`print(f"Error ...: {e}")` reporting of `enable`/`disable`. -/
def errMsg : PyErr → String
  | .notImplemented sys => "Unsupported operating system: " ++ sys
  | .fileNotFound p => "Application path not found: " ++ String.mk p
  | .osError => "OSError"
  | .calledProcessError => "CalledProcessError"

/-- The `StartupManager` instance: the three immutable fields set by
`__init__`. -/
structure Manager where
  app_name : Str
  app_path : Str
  system : String
  deriving DecidableEq, Repr

/-! ### Filesystem primitives -/

/-- Is `p` an existing directory? -/
def dirExists (fs : Fs) (p : Str) : Bool :=
  fs.dirs.any (fun d => d = p)

/-- Is `p` an existing file? -/
def fileExists (fs : Fs) (p : Str) : Bool :=
  fs.files.any (fun f => f.1 = p)

/-- `os.path.exists` / `Path.exists`: file or directory. -/
def pathExists (fs : Fs) (p : Str) : Bool :=
  dirExists fs p || fileExists fs p

/-- All file bindings other than `p`. -/
def eraseKey (p : Str) (l : List (Str × FileData)) : List (Str × FileData) :=
  l.filter (fun f => ¬ f.1 = p)

/-- The data bound to file `p`, if any. -/
def lookupFile (fs : Fs) (p : Str) : Option FileData :=
  (fs.files.find? (fun f => f.1 = p)).map (·.2)

/-- Bind file `p` to `d`, replacing any existing binding. -/
def setFileData (fs : Fs) (p : Str) (d : FileData) : Fs :=
  { fs with files := (p, d) :: eraseKey p fs.files }

/-- Append an event to the trace. -/
def pushEvent (e : Event) (w : World) : World :=
  { w with events := w.events ++ [e] }

/-! ### Effectful operations (each returns `Except (error × world-at-fault)
(result × world)`, so that the state reached before an exception is kept) -/

/-- `os.makedirs(d, exist_ok=True)`: no-op when `d` exists, otherwise
create it (or raise `OSError` when creation fails). -/
def makedirs (env : Env) (d : Str) (w : World) : Except (PyErr × World) World :=
  if dirExists w.fs d then .ok w
  else if env.mkdirOk then .ok { w with fs := { w.fs with dirs := d :: w.fs.dirs } }
  else .error (.osError, w)

/-- `open(p, 'w'); f.write(c)`: truncate/create `p` with content `c`
(keeping an explicitly set mode, `none` for a fresh file). -/
def writeFileW (env : Env) (p c : Str) (w : World) : Except (PyErr × World) World :=
  if env.writeOk then
    .ok (pushEvent (.write p c)
      { w with fs := setFileData w.fs p ⟨c, (lookupFile w.fs p).bind (·.mode)⟩ })
  else .error (.osError, w)

/-- `os.chmod(p, mode)`. -/
def chmodW (env : Env) (p : Str) (mode : Nat) (w : World) : Except (PyErr × World) World :=
  if env.chmodOk then
    match lookupFile w.fs p with
    | some d => .ok (pushEvent (.chmod p mode) { w with fs := setFileData w.fs p ⟨d.content, some mode⟩ })
    | none => .error (.fileNotFound p, w)
  else .error (.osError, w)

/-- `os.remove(p)`. -/
def removeFileW (p : Str) (w : World) : Except (PyErr × World) World :=
  if fileExists w.fs p then
    .ok (pushEvent (.remove p) { w with fs := { w.fs with files := eraseKey p w.fs.files } })
  else .error (.fileNotFound p, w)

/-- The `subprocess.run(["powershell", ...], check=True)` call of `enable`
(Windows): on success the script creates the shortcut file at
`shortcut` with target `target`. -/
def runPowershellShortcut (env : Env) (shortcut target : Str) (w : World) :
    Except (PyErr × World) World :=
  let w := pushEvent (.exec (.powershellShortcut shortcut target)) w
  if env.psOk then .ok { w with fs := setFileData w.fs shortcut ⟨target, none⟩ }
  else .error (.calledProcessError, w)

/-- `subprocess.run(["launchctl", "load", p], check=True)`. -/
def launchctlLoadW (env : Env) (p : Str) (w : World) : Except (PyErr × World) World :=
  let w := pushEvent (.exec (.launchctlLoad p)) w
  if env.loadOk then .ok w else .error (.calledProcessError, w)

/-- `subprocess.run(["launchctl", "unload", p], check=True)`. -/
def launchctlUnloadW (env : Env) (p : Str) (w : World) : Except (PyErr × World) World :=
  let w := pushEvent (.exec (.launchctlUnload p)) w
  if env.unloadOk then .ok w else .error (.calledProcessError, w)

/-! ### The `StartupManager` methods -/

/-- `StartupManager.__init__`: store the name, the `os.path.abspath` of the
supplied path and `platform.system()`, then raise `FileNotFoundError` if
the normalised path does not exist.  Note that `__init__` performs no
platform check: an unsupported `platform.system()` value is accepted
here and only surfaces in `_get_startup_location`. -/
def init (env : Env) (app_name app_path : Str) (fs : Fs) : Except PyErr Manager :=
  let ap := abspath env.cwd app_path
  if pathExists fs ap then .ok ⟨app_name, ap, env.system⟩
  else .error (.fileNotFound ap)

/-- The Windows startup folder:
`os.path.expandvars("%APPDATA%\\Microsoft\\Windows\\Start Menu\\Programs\\Startup")`. -/
def winStartupDir (env : Env) : Str :=
  env.appdata ++ ("\\Microsoft\\Windows\\Start Menu\\Programs\\Startup").data

/-- The shortcut path built by `is_enabled`, `enable` and `disable` on
Windows: `startup_location / f"{app_name}.lnk"` (a `WindowsPath` join,
separator `\`). -/
def winShortcutPath (m : Manager) (env : Env) : Str :=
  winStartupDir env ++ '\\' :: (m.app_name ++ (".lnk").data)

/-- `~/Library/LaunchAgents`. -/
def macAgentsDir (env : Env) : Str :=
  env.home ++ ("/Library/LaunchAgents").data

/-- `~/Library/LaunchAgents/{app_name}.plist`. -/
def macPlistPath (m : Manager) (env : Env) : Str :=
  macAgentsDir env ++ '/' :: (m.app_name ++ (".plist").data)

/-- `~/.config/autostart`. -/
def linuxAutostartDir (env : Env) : Str :=
  env.home ++ ("/.config/autostart").data

/-- `~/.config/autostart/{app_name}.desktop`. -/
def linuxDesktopPath (m : Manager) (env : Env) : Str :=
  linuxAutostartDir env ++ '/' :: (m.app_name ++ (".desktop").data)

/-- `StartupManager._get_startup_location`: per-platform startup path.
On macOS and Linux this also runs `os.makedirs(dir, exist_ok=True)` —
directory creation is a side effect of resolution.  On any other
`platform.system()` value it raises `NotImplementedError`. -/
def getStartupLocation (m : Manager) (env : Env) (w : World) :
    Except (PyErr × World) (Str × World) :=
  if m.system = "Windows" then
    .ok (winStartupDir env, w)
  else if m.system = "Darwin" then
    match makedirs env (macAgentsDir env) w with
    | .ok w => .ok (macPlistPath m env, w)
    | .error e => .error e
  else if m.system = "Linux" then
    match makedirs env (linuxAutostartDir env) w with
    | .ok w => .ok (linuxDesktopPath m env, w)
    | .error e => .error e
  else .error (.notImplemented m.system, w)

/-- `StartupManager.is_enabled`: resolve the location, then check
existence of the shortcut (Windows) or of the artifact itself
(macOS/Linux).  No exception handler: resolution failures propagate.
The Python method has no final `else`, so it would fall through and
return `None` on an unsupported system (unreachable, since resolution
raises first) — modelled by the `Option Bool` result. -/
def is_enabled (m : Manager) (env : Env) (w : World) :
    Except (PyErr × World) (Option Bool × World) :=
  match getStartupLocation m env w with
  | .error e => .error e
  | .ok (loc, w) =>
      if m.system = "Windows" then
        .ok (some (pathExists w.fs (loc ++ '\\' :: (m.app_name ++ (".lnk").data))), w)
      else if m.system = "Darwin" then
        .ok (some (pathExists w.fs loc), w)
      else if m.system = "Linux" then
        .ok (some (pathExists w.fs loc), w)
      else .ok (none, w)

/-- The body of `StartupManager.enable` (the code inside its `try`).
Windows: PowerShell shortcut creation.  macOS: write the plist, chmod
`0o644`, `launchctl load`.  Linux: write the desktop entry, chmod
`0o755`.  The final unreachable branch (unsupported system, which
`_get_startup_location` has already turned into an exception) falls
through to `return True`, as the Python does. -/
def enableBody (m : Manager) (env : Env) (w : World) : Except (PyErr × World) World :=
  match getStartupLocation m env w with
  | .error e => .error e
  | .ok (loc, w) =>
      if m.system = "Windows" then
        runPowershellShortcut env (loc ++ '\\' :: (m.app_name ++ (".lnk").data)) m.app_path w
      else if m.system = "Darwin" then
        match writeFileW env loc (plistContent m.app_name m.app_path) w with
        | .error e => .error e
        | .ok w =>
            match chmodW env loc 0o644 w with
            | .error e => .error e
            | .ok w => launchctlLoadW env loc w
      else if m.system = "Linux" then
        match writeFileW env loc (desktopContent m.app_name m.app_path) w with
        | .error e => .error e
        | .ok w => chmodW env loc 0o755 w
      else .ok w

/-- `StartupManager.enable`: run the body; on success return `True`, on
any exception print `f"Error enabling startup: {e}"` and return `False`.
The third component is the list of error lines printed. -/
def enable (m : Manager) (env : Env) (w : World) : Bool × World × List String :=
  match enableBody m env w with
  | .ok w => (true, w, [])
  | .error (e, w) => (false, w, ["Error enabling startup: " ++ errMsg e])

/-- The body of `StartupManager.disable` (the code inside its `try`).
macOS: if the artifact exists, `launchctl unload` (with `check=True`)
then `os.remove`.  Windows: if the shortcut exists, remove it.  Linux:
if the artifact exists, remove it.  Falls through to `return True` on
the unreachable unsupported-system branch. -/
def disableBody (m : Manager) (env : Env) (w : World) : Except (PyErr × World) World :=
  match getStartupLocation m env w with
  | .error e => .error e
  | .ok (loc, w) =>
      if m.system = "Darwin" then
        if pathExists w.fs loc then
          match launchctlUnloadW env loc w with
          | .error e => .error e
          | .ok w => removeFileW loc w
        else .ok w
      else if m.system = "Windows" then
        if pathExists w.fs (loc ++ '\\' :: (m.app_name ++ (".lnk").data)) then
          removeFileW (loc ++ '\\' :: (m.app_name ++ (".lnk").data)) w
        else .ok w
      else if m.system = "Linux" then
        if pathExists w.fs loc then removeFileW loc w else .ok w
      else .ok w

/-- `StartupManager.disable`: run the body; on success return `True`, on
any exception print `f"Error disabling startup: {e}"` and return `False`. -/
def disable (m : Manager) (env : Env) (w : World) : Bool × World × List String :=
  match disableBody m env w with
  | .ok w => (true, w, [])
  | .error (e, w) => (false, w, ["Error disabling startup: " ++ errMsg e])

/-- The platform is one of the three supported families. -/
def supported (sys : String) : Prop :=
  sys = "Windows" ∨ sys = "Darwin" ∨ sys = "Linux"

/-- Every fallible OS facility used by `enable` succeeds. -/
def enableNominal (env : Env) : Prop :=
  env.mkdirOk = true ∧ env.writeOk = true ∧ env.chmodOk = true ∧
    env.psOk = true ∧ env.loadOk = true

/-- The resolved artifact path (the file whose presence means "enabled"). -/
def artifactPath (m : Manager) (env : Env) : Str :=
  if m.system = "Windows" then winShortcutPath m env
  else if m.system = "Darwin" then macPlistPath m env
  else linuxDesktopPath m env

/-! ### Lemmas about the filesystem primitives -/

theorem fileExists_setFileData_self (fs : Fs) (p : Str) (d : FileData) :
    fileExists (setFileData fs p d) p = true := by
  simp [fileExists, setFileData]

theorem pathExists_of_fileExists (fs : Fs) (p : Str) (h : fileExists fs p = true) :
    pathExists fs p = true := by
  simp [pathExists, h]

theorem lookupFile_setFileData_self (fs : Fs) (p : Str) (d : FileData) :
    lookupFile (setFileData fs p d) p = some d := by
  simp [lookupFile, setFileData, List.find?]

theorem eraseKey_cons_self (p : Str) (d : FileData) (l : List (Str × FileData)) :
    eraseKey p ((p, d) :: l) = eraseKey p l := by
  simp [eraseKey]

theorem eraseKey_idem (p : Str) (l : List (Str × FileData)) :
    eraseKey p (eraseKey p l) = eraseKey p l := by
  simp [eraseKey, List.filter_filter]

theorem setFileData_setFileData (fs : Fs) (p : Str) (d d' : FileData) :
    setFileData (setFileData fs p d) p d' = setFileData fs p d' := by
  simp [setFileData, eraseKey_cons_self, eraseKey_idem]

theorem countKey_eraseKey (p : Str) (l : List (Str × FileData)) :
    (eraseKey p l).countP (fun f => f.1 = p) = 0 := by
  rw [List.countP_eq_zero]
  intro f hf
  have := (List.mem_filter.mp hf).2
  simpa using this

theorem countKey_setFileData (fs : Fs) (p : Str) (d : FileData) :
    (setFileData fs p d).files.countP (fun f => f.1 = p) = 1 := by
  simp [setFileData, List.countP_cons, countKey_eraseKey]

theorem dirs_setFileData (fs : Fs) (p : Str) (d : FileData) :
    (setFileData fs p d).dirs = fs.dirs := rfl

theorem dirExists_cons_self (fs : Fs) (d : Str) :
    dirExists { fs with dirs := d :: fs.dirs } d = true := by
  simp [dirExists]

theorem fileExists_eraseKey_self (fs : Fs) (p : Str) :
    fileExists { fs with files := eraseKey p fs.files } p = false := by
  simp only [fileExists, List.any_eq_false]
  intro f hf
  have := (List.mem_filter.mp hf).2
  simpa using this

/-! ### Execution lemmas: what each platform branch computes -/

/-- The directory set after `os.makedirs(d, exist_ok=True)` succeeds. -/
def afterMkdir (fs : Fs) (d : Str) : Fs :=
  { fs with dirs := if dirExists fs d then fs.dirs else d :: fs.dirs }

theorem makedirs_nominal (env : Env) (d : Str) (w : World) (h : env.mkdirOk = true) :
    makedirs env d w = .ok { w with fs := afterMkdir w.fs d } := by
  by_cases hd : dirExists w.fs d
  · simp [makedirs, afterMkdir, hd]
  · simp [makedirs, afterMkdir, hd, h]

theorem afterMkdir_files (fs : Fs) (d : Str) : (afterMkdir fs d).files = fs.files := rfl

theorem dirExists_afterMkdir (fs : Fs) (d : Str) : dirExists (afterMkdir fs d) d = true := by
  by_cases hd : dirExists fs d
  · simp [afterMkdir, hd]
  · simp only [afterMkdir, hd, if_false]
    exact dirExists_cons_self fs d

theorem makedirs_of_dirExists (env : Env) (d : Str) (w : World)
    (h : dirExists w.fs d = true) : makedirs env d w = .ok w := by
  simp [makedirs, h]

theorem afterMkdir_of_dirExists (fs : Fs) (d : Str) (h : dirExists fs d = true) :
    afterMkdir fs d = fs := by
  simp [afterMkdir, h]

theorem enableBody_windows_run (m : Manager) (env : Env) (w : World)
    (hsys : m.system = "Windows") (hps : env.psOk = true) :
    enableBody m env w =
      .ok ⟨setFileData w.fs (winShortcutPath m env) ⟨m.app_path, none⟩,
        w.events ++ [.exec (.powershellShortcut (winShortcutPath m env) m.app_path)]⟩ := by
  simp [enableBody, getStartupLocation, hsys, runPowershellShortcut, pushEvent, hps,
    winShortcutPath]

theorem enableBody_darwin_run (m : Manager) (env : Env) (w : World)
    (hsys : m.system = "Darwin") (hmk : env.mkdirOk = true) (hw : env.writeOk = true)
    (hc : env.chmodOk = true) (hl : env.loadOk = true) :
    enableBody m env w =
      .ok ⟨setFileData (afterMkdir w.fs (macAgentsDir env)) (macPlistPath m env)
            ⟨plistContent m.app_name m.app_path, some 0o644⟩,
        w.events ++ [.write (macPlistPath m env) (plistContent m.app_name m.app_path),
          .chmod (macPlistPath m env) 0o644,
          .exec (.launchctlLoad (macPlistPath m env))]⟩ := by
  simp only [enableBody, getStartupLocation, hsys, String.reduceEq, reduceIte]
  rw [makedirs_nominal env _ _ hmk]
  simp only [writeFileW, hw, if_true, chmodW, hc,
    lookupFile_setFileData_self, launchctlLoadW, hl, pushEvent,
    setFileData_setFileData]
  simp

theorem enableBody_linux_run (m : Manager) (env : Env) (w : World)
    (hsys : m.system = "Linux") (hmk : env.mkdirOk = true) (hw : env.writeOk = true)
    (hc : env.chmodOk = true) :
    enableBody m env w =
      .ok ⟨setFileData (afterMkdir w.fs (linuxAutostartDir env)) (linuxDesktopPath m env)
            ⟨desktopContent m.app_name m.app_path, some 0o755⟩,
        w.events ++ [.write (linuxDesktopPath m env) (desktopContent m.app_name m.app_path),
          .chmod (linuxDesktopPath m env) 0o755]⟩ := by
  simp only [enableBody, getStartupLocation, hsys, String.reduceEq, reduceIte]
  rw [makedirs_nominal env _ _ hmk]
  simp only [writeFileW, hw, if_true, chmodW, hc,
    lookupFile_setFileData_self, pushEvent, setFileData_setFileData]
  simp

theorem pathExists_setFileData_self (fs : Fs) (p : Str) (d : FileData) :
    pathExists (setFileData fs p d) p = true :=
  pathExists_of_fileExists _ _ (fileExists_setFileData_self fs p d)

theorem dirExists_setFileData (fs : Fs) (p : Str) (d : FileData) (x : Str) :
    dirExists (setFileData fs p d) x = dirExists fs x := rfl

/-- The value returned by `is_enabled`, or `none` when it raises. -/
def isEnabledValue (m : Manager) (env : Env) (w : World) : Option (Option Bool) :=
  match is_enabled m env w with
  | .ok (b, _) => some b
  | .error _ => none

/-- **C1.** For every supported platform and every manager, when the OS
facilities invoked by `enable` all succeed (and nothing else touches the
filesystem in between), `enable()` returns `True` and a subsequent
`is_enabled()` returns `True`. -/
theorem enable_then_is_enabled (m : Manager) (env : Env) (w : World)
    (hsup : supported m.system) (hnom : enableNominal env) :
    (enable m env w).1 = true ∧
      isEnabledValue m env (enable m env w).2.1 = some (some true) := by
  obtain ⟨hmk, hw, hc, hps, hl⟩ := hnom
  rcases hsup with hsys | hsys | hsys
  · rw [enable, enableBody_windows_run m env w hsys hps]
    refine ⟨rfl, ?_⟩
    simp only [isEnabledValue, is_enabled, getStartupLocation, hsys, String.reduceEq,
      reduceIte, winShortcutPath, pathExists_setFileData_self]
  · rw [enable, enableBody_darwin_run m env w hsys hmk hw hc hl]
    refine ⟨rfl, ?_⟩
    simp only [isEnabledValue, is_enabled, getStartupLocation, hsys, String.reduceEq,
      reduceIte]
    rw [makedirs_of_dirExists env _ _ (dirExists_afterMkdir w.fs (macAgentsDir env))]
    simp only [macPlistPath, pathExists_setFileData_self]
  · rw [enable, enableBody_linux_run m env w hsys hmk hw hc]
    refine ⟨rfl, ?_⟩
    simp only [isEnabledValue, is_enabled, getStartupLocation, hsys, String.reduceEq,
      reduceIte]
    rw [makedirs_of_dirExists env _ _ (dirExists_afterMkdir w.fs (linuxAutostartDir env))]
    simp only [linuxDesktopPath, pathExists_setFileData_self]

/-- **C6.** For every supported platform, a second `enable()` in
succession still returns `True`, leaves the filesystem exactly as the
first call left it (overwrite, not duplication), and the filesystem holds
exactly one binding at the resolved artifact location. -/
theorem enable_twice_idempotent (m : Manager) (env : Env) (w : World)
    (hsup : supported m.system) (hnom : enableNominal env) :
    (enable m env (enable m env w).2.1).1 = true ∧
      (enable m env (enable m env w).2.1).2.1.fs = (enable m env w).2.1.fs ∧
      (enable m env w).2.1.fs.files.countP (fun f => f.1 = artifactPath m env) = 1 := by
  obtain ⟨hmk, hw, hc, hps, hl⟩ := hnom
  rcases hsup with hsys | hsys | hsys
  · have h1 : enable m env w = (true,
        ⟨setFileData w.fs (winShortcutPath m env) ⟨m.app_path, none⟩,
          w.events ++ [.exec (.powershellShortcut (winShortcutPath m env) m.app_path)]⟩,
        []) := by
      rw [enable, enableBody_windows_run m env w hsys hps]
    rw [h1]
    dsimp only
    rw [enable, enableBody_windows_run m env _ hsys hps]
    refine ⟨rfl, ?_, ?_⟩
    · simp [setFileData_setFileData]
    · simp only [artifactPath, hsys, String.reduceEq, reduceIte]
      exact countKey_setFileData _ _ _
  · have h1 : enable m env w = (true,
        ⟨setFileData (afterMkdir w.fs (macAgentsDir env)) (macPlistPath m env)
            ⟨plistContent m.app_name m.app_path, some 0o644⟩,
          w.events ++ [.write (macPlistPath m env) (plistContent m.app_name m.app_path),
            .chmod (macPlistPath m env) 0o644,
            .exec (.launchctlLoad (macPlistPath m env))]⟩,
        []) := by
      rw [enable, enableBody_darwin_run m env w hsys hmk hw hc hl]
    rw [h1]
    dsimp only
    rw [enable, enableBody_darwin_run m env _ hsys hmk hw hc hl]
    refine ⟨rfl, ?_, ?_⟩
    · have hdir : dirExists (setFileData (afterMkdir w.fs (macAgentsDir env))
          (macPlistPath m env) ⟨plistContent m.app_name m.app_path, some 0o644⟩)
          (macAgentsDir env) = true :=
        dirExists_afterMkdir w.fs (macAgentsDir env)
      simp only [afterMkdir_of_dirExists _ _ hdir, setFileData_setFileData]
    · simp only [artifactPath, hsys, String.reduceEq, reduceIte]
      exact countKey_setFileData _ _ _
  · have h1 : enable m env w = (true,
        ⟨setFileData (afterMkdir w.fs (linuxAutostartDir env)) (linuxDesktopPath m env)
            ⟨desktopContent m.app_name m.app_path, some 0o755⟩,
          w.events ++ [.write (linuxDesktopPath m env) (desktopContent m.app_name m.app_path),
            .chmod (linuxDesktopPath m env) 0o755]⟩,
        []) := by
      rw [enable, enableBody_linux_run m env w hsys hmk hw hc]
    rw [h1]
    dsimp only
    rw [enable, enableBody_linux_run m env _ hsys hmk hw hc]
    refine ⟨rfl, ?_, ?_⟩
    · have hdir : dirExists (setFileData (afterMkdir w.fs (linuxAutostartDir env))
          (linuxDesktopPath m env) ⟨desktopContent m.app_name m.app_path, some 0o755⟩)
          (linuxAutostartDir env) = true :=
        dirExists_afterMkdir w.fs (linuxAutostartDir env)
      simp only [afterMkdir_of_dirExists _ _ hdir, setFileData_setFileData]
    · simp only [artifactPath, hsys, String.reduceEq, reduceIte]
      exact countKey_setFileData _ _ _

/-- **C3.** `enable` and `disable` are total boolean-returning
operations: each either returns `True` having printed nothing, or catches
the exception raised inside its `try` block and returns `False` having
printed exactly one human-readable error line interpolating the
exception.  No exception escapes to the caller. -/
theorem enable_disable_never_raise (m : Manager) (env : Env) (w : World) :
    (((enable m env w).1 = true ∧ (enable m env w).2.2 = []) ∨
      ((enable m env w).1 = false ∧
        ∃ e, (enable m env w).2.2 = ["Error enabling startup: " ++ errMsg e])) ∧
    (((disable m env w).1 = true ∧ (disable m env w).2.2 = []) ∨
      ((disable m env w).1 = false ∧
        ∃ e, (disable m env w).2.2 = ["Error disabling startup: " ++ errMsg e])) := by
  constructor
  · cases h : enableBody m env w with
    | ok w' => left; simp [enable, h]
    | error e =>
        right; obtain ⟨e, w'⟩ := e
        exact ⟨by simp [enable, h], ⟨e, by simp [enable, h]⟩⟩
  · cases h : disableBody m env w with
    | ok w' => left; simp [disable, h]
    | error e =>
        right; obtain ⟨e, w'⟩ := e
        exact ⟨by simp [disable, h], ⟨e, by simp [disable, h]⟩⟩

instance decSupported (s : String) : Decidable (supported s) :=
  if h : s = "Windows" ∨ s = "Darwin" ∨ s = "Linux" then .isTrue h else .isFalse h

instance decEnableNominal (env : Env) : Decidable (enableNominal env) :=
  if h : env.mkdirOk = true ∧ env.writeOk = true ∧ env.chmodOk = true ∧
      env.psOk = true ∧ env.loadOk = true then .isTrue h else .isFalse h

instance exceptDecEq {ε α : Type} [DecidableEq ε] [DecidableEq α] :
    DecidableEq (Except ε α) := fun a b =>
  match a, b with
  | .ok x, .ok y =>
      decidable_of_iff (x = y) ⟨fun h => by rw [h], fun h => by cases h; rfl⟩
  | .ok _, .error _ => .isFalse (by intro h; cases h)
  | .error _, .ok _ => .isFalse (by intro h; cases h)
  | .error x, .error y =>
      decidable_of_iff (x = y) ⟨fun h => by rw [h], fun h => by cases h; rfl⟩

/-- **C2, counterexample.** On an unrecognised platform identity
(`platform.system() = "FreeBSD"`) with a valid executable path, the
constructor succeeds — no `UnsupportedPlatform` (`NotImplementedError`)
is raised at construction time, contradicting the claim that the error is
raised at construction rather than deferred. -/
theorem init_accepts_unsupported_platform :
    init ⟨"FreeBSD", [], [], ("/").data, true, true, true, true, true, true⟩
        ("App").data ("/app").data ⟨[], [(("/app").data, ⟨[], none⟩)]⟩ =
      .ok ⟨("App").data, ("/app").data, "FreeBSD"⟩ := by
  decide

/-- **C2, amended.** On an unrecognised platform identity the constructor
succeeds (given an existing executable path); the `UnsupportedPlatform`
error (`NotImplementedError`) is deferred to the first operation:
`is_enabled` raises it, while `enable` and `disable` catch it and return
`False`. -/
theorem unsupported_platform_deferred (env : Env) (name p : Str) (fs : Fs) (w : World)
    (hunsup : ¬ supported env.system)
    (hpath : pathExists fs (abspath env.cwd p) = true) :
    init env name p fs = .ok ⟨name, abspath env.cwd p, env.system⟩ ∧
      is_enabled ⟨name, abspath env.cwd p, env.system⟩ env w =
        .error (.notImplemented env.system, w) ∧
      (enable ⟨name, abspath env.cwd p, env.system⟩ env w).1 = false ∧
      (disable ⟨name, abspath env.cwd p, env.system⟩ env w).1 = false := by
  rw [supported, not_or, not_or] at hunsup
  obtain ⟨hW, hD, hL⟩ := hunsup
  refine ⟨by simp [init, hpath], ?_, ?_, ?_⟩
  · simp [is_enabled, getStartupLocation, hW, hD, hL]
  · simp [enable, enableBody, getStartupLocation, hW, hD, hL]
  · simp [disable, disableBody, getStartupLocation, hW, hD, hL]

/-- Witness for the amended C2 at `platform.system() = "FreeBSD"`. -/
theorem unsupported_platform_deferred_witness :
    ¬ supported "FreeBSD" ∧
      init ⟨"FreeBSD", [], [], ("/").data, true, true, true, true, true, true⟩
          ("App").data ("/app").data ⟨[], [(("/app").data, ⟨[], none⟩)]⟩ =
        .ok ⟨("App").data,
          abspath ("/").data ("/app").data, "FreeBSD"⟩ :=
  ⟨by decide,
    (unsupported_platform_deferred
      ⟨"FreeBSD", [], [], ("/").data, true, true, true, true, true, true⟩
      ("App").data ("/app").data ⟨[], [(("/app").data, ⟨[], none⟩)]⟩
      ⟨⟨[], []⟩, []⟩ (by decide) (by decide)).1⟩

/-- **C4, counterexample.** `is_enabled` is not free of filesystem
mutation: on Linux with the autostart directory absent, the location
resolution inside `is_enabled` creates `~/.config/autostart`
(`os.makedirs`), so the filesystem after the call differs from the
filesystem before it. -/
theorem is_enabled_mutates_fs :
    is_enabled ⟨("App").data, ("/app").data, "Linux"⟩
        ⟨"Linux", ("/h").data, [], ("/").data, true, true, true, true, true, true⟩
        ⟨⟨[], []⟩, []⟩ =
      .ok (some false, ⟨⟨[("/h/.config/autostart").data], []⟩, []⟩) ∧
      ¬ (⟨[("/h/.config/autostart").data], []⟩ : Fs) = ⟨[], []⟩ := by
  decide

/-- **C4, amended.** On every supported platform `is_enabled` is a pure
read up to directory creation: whenever it returns, the file bindings and
the event trace (writes, chmods, removes, process invocations) are exactly
those of the input world — only the registration directory may have been
created by resolution; and resolution failures are not suppressed: when
directory creation fails on MacFamily/LinuxFamily, `is_enabled` propagates
the `OSError` to the caller. -/
theorem is_enabled_pure_up_to_mkdir (m : Manager) (env : Env) (w : World)
    (hsup : supported m.system) :
    (∀ b w', is_enabled m env w = .ok (b, w') →
        w'.fs.files = w.fs.files ∧ w'.events = w.events) ∧
    (env.mkdirOk = false →
      ((m.system = "Darwin" → dirExists w.fs (macAgentsDir env) = false →
          is_enabled m env w = .error (.osError, w)) ∧
       (m.system = "Linux" → dirExists w.fs (linuxAutostartDir env) = false →
          is_enabled m env w = .error (.osError, w)))) := by
  rcases hsup with hsys | hsys | hsys
  · constructor
    · intro b w' h
      simp only [is_enabled, getStartupLocation, hsys, String.reduceEq, reduceIte,
        Except.ok.injEq, Prod.mk.injEq] at h
      obtain ⟨-, rfl⟩ := h
      exact ⟨rfl, rfl⟩
    · intro _
      exact ⟨fun hD => absurd (hsys.symm.trans hD) (by decide),
        fun hL => absurd (hsys.symm.trans hL) (by decide)⟩
  · constructor
    · intro b w' h
      simp only [is_enabled, getStartupLocation, hsys, String.reduceEq, reduceIte] at h
      by_cases hd : dirExists w.fs (macAgentsDir env) = true
      · rw [makedirs_of_dirExists env _ _ hd] at h
        simp only [Except.ok.injEq, Prod.mk.injEq] at h
        obtain ⟨-, rfl⟩ := h
        exact ⟨rfl, rfl⟩
      · by_cases hmk : env.mkdirOk = true
        · rw [makedirs_nominal env _ _ hmk] at h
          simp only [Except.ok.injEq, Prod.mk.injEq] at h
          obtain ⟨-, rfl⟩ := h
          exact ⟨afterMkdir_files _ _, rfl⟩
        · have hd' : dirExists w.fs (macAgentsDir env) = false := by simpa using hd
          have hmk' : env.mkdirOk = false := by simpa using hmk
          rw [makedirs, hd', if_neg (by simp), hmk', if_neg (by simp)] at h
          cases h
    · intro hmk
      refine ⟨fun _ hd => ?_, fun hL => absurd (hsys.symm.trans hL) (by decide)⟩
      simp only [is_enabled, getStartupLocation, hsys, String.reduceEq, reduceIte]
      rw [makedirs, hd, if_neg (by simp), hmk, if_neg (by simp)]
  · constructor
    · intro b w' h
      simp only [is_enabled, getStartupLocation, hsys, String.reduceEq, reduceIte] at h
      by_cases hd : dirExists w.fs (linuxAutostartDir env) = true
      · rw [makedirs_of_dirExists env _ _ hd] at h
        simp only [Except.ok.injEq, Prod.mk.injEq] at h
        obtain ⟨-, rfl⟩ := h
        exact ⟨rfl, rfl⟩
      · by_cases hmk : env.mkdirOk = true
        · rw [makedirs_nominal env _ _ hmk] at h
          simp only [Except.ok.injEq, Prod.mk.injEq] at h
          obtain ⟨-, rfl⟩ := h
          exact ⟨afterMkdir_files _ _, rfl⟩
        · have hd' : dirExists w.fs (linuxAutostartDir env) = false := by simpa using hd
          have hmk' : env.mkdirOk = false := by simpa using hmk
          rw [makedirs, hd', if_neg (by simp), hmk', if_neg (by simp)] at h
          cases h
    · intro hmk
      refine ⟨fun hD => absurd (hsys.symm.trans hD) (by decide), fun _ hd => ?_⟩
      simp only [is_enabled, getStartupLocation, hsys, String.reduceEq, reduceIte]
      rw [makedirs, hd, if_neg (by simp), hmk, if_neg (by simp)]

/-- Witness for the amended C4: on a concrete Linux manager whose
autostart directory already exists, `is_enabled` returns with the file
bindings and the event trace unchanged. -/
theorem is_enabled_pure_up_to_mkdir_witness :
    supported "Linux" ∧
      (∀ b w', is_enabled ⟨("App").data, ("/app").data, "Linux"⟩
          ⟨"Linux", ("/h").data, [], ("/").data, true, true, true, true, true, true⟩
          ⟨⟨[("/h/.config/autostart").data], []⟩, []⟩ = .ok (b, w') →
        w'.fs.files = (⟨⟨[("/h/.config/autostart").data], []⟩, []⟩ : World).fs.files ∧
        w'.events = (⟨⟨[("/h/.config/autostart").data], []⟩, []⟩ : World).events) :=
  ⟨by decide,
    (is_enabled_pure_up_to_mkdir ⟨("App").data, ("/app").data, "Linux"⟩
      ⟨"Linux", ("/h").data, [], ("/").data, true, true, true, true, true, true⟩
      ⟨⟨[("/h/.config/autostart").data], []⟩, []⟩ (by decide)).1⟩

theorem fileExists_afterMkdir (fs : Fs) (d p : Str) :
    fileExists (afterMkdir fs d) p = fileExists fs p := rfl

/-- What the Darwin branch of `disable` computes when the plist file
exists (with directory creation succeeding): `launchctl unload` is
invoked first; only if it succeeds (`check=True`) is `os.remove`
reached. -/
theorem disableBody_darwin_run (m : Manager) (env : Env) (w : World)
    (hsys : m.system = "Darwin") (hmk : env.mkdirOk = true)
    (hfile : fileExists w.fs (macPlistPath m env) = true) :
    disableBody m env w =
      (if env.unloadOk then
        .ok ⟨⟨(afterMkdir w.fs (macAgentsDir env)).dirs,
            eraseKey (macPlistPath m env) w.fs.files⟩,
          w.events ++ [.exec (.launchctlUnload (macPlistPath m env)),
            .remove (macPlistPath m env)]⟩
      else .error (.calledProcessError,
        ⟨afterMkdir w.fs (macAgentsDir env),
          w.events ++ [.exec (.launchctlUnload (macPlistPath m env))]⟩)) := by
  have hpe : pathExists (afterMkdir w.fs (macAgentsDir env)) (macPlistPath m env) = true :=
    pathExists_of_fileExists _ _ ((fileExists_afterMkdir w.fs (macAgentsDir env) _).trans hfile)
  simp only [disableBody, getStartupLocation, hsys, String.reduceEq, reduceIte]
  rw [makedirs_nominal env _ _ hmk]
  by_cases hu : env.unloadOk = true
  · simp only [hpe, if_true, launchctlUnloadW, hu, pushEvent, removeFileW,
      fileExists_afterMkdir, hfile, eraseKey]
    simp [hu, afterMkdir_files]
  · have hu' : env.unloadOk = false := by simpa using hu
    simp only [hpe, if_true, launchctlUnloadW, hu', pushEvent]
    simp [hu']

/-- **C5, counterexample.** On MacFamily the unloader invocation is *not*
best-effort: `launchctl unload` is run with `check=True`, so when it
fails the exception aborts `disable` before `os.remove` — the artifact
file is not deleted, `disable` returns `False`, and no remove event
occurs. -/
theorem mac_unload_failure_skips_delete :
    (disable ⟨("App").data, ("/app").data, "Darwin"⟩
        ⟨"Darwin", ("/h").data, [], ("/").data, true, true, true, true, true, false⟩
        ⟨⟨[("/h/Library/LaunchAgents").data],
          [(("/h/Library/LaunchAgents/App.plist").data, ⟨[], none⟩)]⟩, []⟩).1 = false ∧
    fileExists (disable ⟨("App").data, ("/app").data, "Darwin"⟩
        ⟨"Darwin", ("/h").data, [], ("/").data, true, true, true, true, true, false⟩
        ⟨⟨[("/h/Library/LaunchAgents").data],
          [(("/h/Library/LaunchAgents/App.plist").data, ⟨[], none⟩)]⟩, []⟩).2.1.fs
      (("/h/Library/LaunchAgents/App.plist").data) = true ∧
    Event.remove (("/h/Library/LaunchAgents/App.plist").data) ∉
      (disable ⟨("App").data, ("/app").data, "Darwin"⟩
        ⟨"Darwin", ("/h").data, [], ("/").data, true, true, true, true, true, false⟩
        ⟨⟨[("/h/Library/LaunchAgents").data],
          [(("/h/Library/LaunchAgents/App.plist").data, ⟨[], none⟩)]⟩, []⟩).2.1.events := by
  decide

/-- **C5, amended.** On MacFamily, when the artifact exists `disable`
always invokes the session agent unloader before any deletion, and the
deletion never precedes the unload attempt; but the invocation is
required to succeed (`check=True`) rather than best-effort: if the
unloader succeeds the artifact is then deleted (trace
`[unload, remove]`), while if it fails the deletion is skipped, the
artifact remains, and `disable` returns `False`. -/
theorem mac_disable_unloads_before_delete (m : Manager) (env : Env) (w : World)
    (hsys : m.system = "Darwin") (hmk : env.mkdirOk = true)
    (hfile : fileExists w.fs (macPlistPath m env) = true) :
    (env.unloadOk = true →
      disable m env w = (true,
        ⟨⟨(afterMkdir w.fs (macAgentsDir env)).dirs,
            eraseKey (macPlistPath m env) w.fs.files⟩,
          w.events ++ [.exec (.launchctlUnload (macPlistPath m env)),
            .remove (macPlistPath m env)]⟩, [])) ∧
    (env.unloadOk = false →
      disable m env w = (false,
        ⟨afterMkdir w.fs (macAgentsDir env),
          w.events ++ [.exec (.launchctlUnload (macPlistPath m env))]⟩,
        ["Error disabling startup: " ++ errMsg .calledProcessError]) ∧
      fileExists (afterMkdir w.fs (macAgentsDir env)) (macPlistPath m env) = true) := by
  have hrun := disableBody_darwin_run m env w hsys hmk hfile
  constructor
  · intro hu
    rw [disable, hrun, if_pos hu]
  · intro hu
    refine ⟨?_, (fileExists_afterMkdir w.fs (macAgentsDir env) _).trans hfile⟩
    rw [disable, hrun, if_neg (by simp [hu])]

/-- Witness for the amended C5: concrete Darwin manager with the artifact
present and a successful unloader — `disable` unloads, then removes. -/
theorem mac_disable_unloads_before_delete_witness :
    fileExists (⟨⟨[("/h/Library/LaunchAgents").data],
        [(("/h/Library/LaunchAgents/App.plist").data, ⟨[], none⟩)]⟩, []⟩ : World).fs
      (macPlistPath ⟨("App").data, ("/app").data, "Darwin"⟩
        ⟨"Darwin", ("/h").data, [], ("/").data, true, true, true, true, true, true⟩) = true ∧
    (disable ⟨("App").data, ("/app").data, "Darwin"⟩
        ⟨"Darwin", ("/h").data, [], ("/").data, true, true, true, true, true, true⟩
        ⟨⟨[("/h/Library/LaunchAgents").data],
          [(("/h/Library/LaunchAgents/App.plist").data, ⟨[], none⟩)]⟩, []⟩).2.1.events =
      [.exec (.launchctlUnload (("/h/Library/LaunchAgents/App.plist").data)),
        .remove (("/h/Library/LaunchAgents/App.plist").data)] := by
  refine ⟨by decide, ?_⟩
  have h := (mac_disable_unloads_before_delete
    ⟨("App").data, ("/app").data, "Darwin"⟩
    ⟨"Darwin", ("/h").data, [], ("/").data, true, true, true, true, true, true⟩
    ⟨⟨[("/h/Library/LaunchAgents").data],
      [(("/h/Library/LaunchAgents/App.plist").data, ⟨[], none⟩)]⟩, []⟩
    rfl (by decide) (by decide)).1 rfl
  rw [h]
  decide

/-- The Darwin branch of `enable` when the loader fails: the plist has
already been written and chmodded when `launchctl load` raises. -/
theorem enableBody_darwin_loadfail (m : Manager) (env : Env) (w : World)
    (hsys : m.system = "Darwin") (hmk : env.mkdirOk = true) (hw : env.writeOk = true)
    (hc : env.chmodOk = true) (hl : env.loadOk = false) :
    enableBody m env w =
      .error (.calledProcessError,
        ⟨setFileData (afterMkdir w.fs (macAgentsDir env)) (macPlistPath m env)
            ⟨plistContent m.app_name m.app_path, some 0o644⟩,
          w.events ++ [.write (macPlistPath m env) (plistContent m.app_name m.app_path),
            .chmod (macPlistPath m env) 0o644,
            .exec (.launchctlLoad (macPlistPath m env))]⟩) := by
  simp only [enableBody, getStartupLocation, hsys, String.reduceEq, reduceIte]
  rw [makedirs_nominal env _ _ hmk]
  simp only [writeFileW, hw, if_true, chmodW, hc,
    lookupFile_setFileData_self, launchctlLoadW, hl, pushEvent,
    setFileData_setFileData]
  simp

/-- **C9.** On MacFamily `enable` performs its side effects in the order
write file → chmod `0o644` → invoke the loader (visible in the event
trace); when the loader invocation fails, `enable` returns `False` with
an error report while the written artifact stays in place (no rollback),
so `is_enabled` on the resulting state still returns `True`. -/
theorem mac_enable_order_and_no_rollback (m : Manager) (env : Env) (w : World)
    (hsys : m.system = "Darwin") (hmk : env.mkdirOk = true) (hw : env.writeOk = true)
    (hc : env.chmodOk = true) :
    (env.loadOk = true →
      enable m env w = (true,
        ⟨setFileData (afterMkdir w.fs (macAgentsDir env)) (macPlistPath m env)
            ⟨plistContent m.app_name m.app_path, some 0o644⟩,
          w.events ++ [.write (macPlistPath m env) (plistContent m.app_name m.app_path),
            .chmod (macPlistPath m env) 0o644,
            .exec (.launchctlLoad (macPlistPath m env))]⟩, [])) ∧
    (env.loadOk = false →
      enable m env w = (false,
        ⟨setFileData (afterMkdir w.fs (macAgentsDir env)) (macPlistPath m env)
            ⟨plistContent m.app_name m.app_path, some 0o644⟩,
          w.events ++ [.write (macPlistPath m env) (plistContent m.app_name m.app_path),
            .chmod (macPlistPath m env) 0o644,
            .exec (.launchctlLoad (macPlistPath m env))]⟩,
        ["Error enabling startup: " ++ errMsg .calledProcessError]) ∧
      isEnabledValue m env
        ⟨setFileData (afterMkdir w.fs (macAgentsDir env)) (macPlistPath m env)
            ⟨plistContent m.app_name m.app_path, some 0o644⟩,
          w.events ++ [.write (macPlistPath m env) (plistContent m.app_name m.app_path),
            .chmod (macPlistPath m env) 0o644,
            .exec (.launchctlLoad (macPlistPath m env))]⟩ = some (some true)) := by
  constructor
  · intro hl
    rw [enable, enableBody_darwin_run m env w hsys hmk hw hc hl]
  · intro hl
    refine ⟨?_, ?_⟩
    · rw [enable, enableBody_darwin_loadfail m env w hsys hmk hw hc hl]
    · simp only [isEnabledValue, is_enabled, getStartupLocation, hsys, String.reduceEq,
        reduceIte]
      rw [makedirs_of_dirExists env _ _ (dirExists_afterMkdir w.fs (macAgentsDir env))]
      simp only [macPlistPath, pathExists_setFileData_self]

/-- Witness for C9 at a concrete Darwin manager with a failing loader:
`enable` reports failure, yet `is_enabled` on the resulting state is
`True`. -/
theorem mac_enable_order_and_no_rollback_witness :
    (enable ⟨("App").data, ("/app").data, "Darwin"⟩
        ⟨"Darwin", ("/h").data, [], ("/").data, true, true, true, true, false, true⟩
        ⟨⟨[], []⟩, []⟩).1 = false ∧
    isEnabledValue ⟨("App").data, ("/app").data, "Darwin"⟩
        ⟨"Darwin", ("/h").data, [], ("/").data, true, true, true, true, false, true⟩
        (enable ⟨("App").data, ("/app").data, "Darwin"⟩
          ⟨"Darwin", ("/h").data, [], ("/").data, true, true, true, true, false, true⟩
          ⟨⟨[], []⟩, []⟩).2.1 = some (some true) := by
  have h := (mac_enable_order_and_no_rollback ⟨("App").data, ("/app").data, "Darwin"⟩
    ⟨"Darwin", ("/h").data, [], ("/").data, true, true, true, true, false, true⟩
    ⟨⟨[], []⟩, []⟩ rfl (by decide) (by decide) (by decide)).2 rfl
  exact ⟨by rw [h.1], by rw [h.1]; exact h.2⟩

/-- **C10.** `__init__` stores `os.path.abspath(app_path)`: the stored
`app_path` field — the one used by the construction-time existence check
and interpolated into every rendered artifact (`ProgramArguments`,
`Exec`, the shortcut target) — is the absolute normalisation of the
input.  The existence check is performed on the normalised path (both
outcomes shown), the stored path is absolute whenever the working
directory is, and a relative input is resolved against the working
directory (`normpath(join(cwd, p))`) rather than used as given. -/
theorem init_normalizes_path (env : Env) (name p : Str) (fs : Fs) :
    (pathExists fs (abspath env.cwd p) = true →
      init env name p fs = .ok ⟨name, abspath env.cwd p, env.system⟩) ∧
    (pathExists fs (abspath env.cwd p) = false →
      init env name p fs = .error (.fileNotFound (abspath env.cwd p))) ∧
    (isAbs env.cwd = true → isAbs (abspath env.cwd p) = true) ∧
    (isAbs p = false → abspath env.cwd p = normpath (joinPath env.cwd p)) := by
  refine ⟨fun hpath => by simp [init, hpath],
    fun hpath => by simp [init, hpath],
    fun hcwd => isAbs_abspath env.cwd p hcwd,
    fun hp => ?_⟩
  rw [abspath, hp]
  simp

/-- Witness for C10 with a relative input path: `"bin/app"` under working
directory `"/home/u"` is stored as `"/home/u/bin/app"`, not as given. -/
theorem init_normalizes_path_witness :
    isAbs (("bin/app").data) = false ∧
      init ⟨"Linux", ("/home/u").data, [], ("/home/u").data, true, true, true, true, true, true⟩
          ("App").data ("bin/app").data
          ⟨[], [(("/home/u/bin/app").data, ⟨[], none⟩)]⟩ =
        .ok ⟨("App").data, ("/home/u/bin/app").data, "Linux"⟩ := by
  refine ⟨by decide, ?_⟩
  have h := (init_normalizes_path
    ⟨"Linux", ("/home/u").data, [], ("/home/u").data, true, true, true, true, true, true⟩
    ("App").data ("bin/app").data
    ⟨[], [(("/home/u/bin/app").data, ⟨[], none⟩)]⟩).1 (by decide)
  rw [h]
  decide

theorem noNl_desktopLines (name path : Str) (hn : '\n' ∉ name) (hp : '\n' ∉ path) :
    ∀ l ∈ desktopLines name path, '\n' ∉ l := by
  intro l hl
  simp only [desktopLines, List.mem_cons, List.not_mem_nil, or_false] at hl
  rcases hl with rfl | rfl | rfl | rfl | rfl | rfl
  · decide
  · decide
  · intro hmem
    rcases List.mem_append.mp hmem with h | h
    · exact absurd h (by decide)
    · exact hn h
  · intro hmem
    rcases List.mem_append.mp hmem with h | h
    · exact absurd h (by decide)
    · exact hp h
  · decide
  · decide

/-- **C8.** The rendered desktop-entry content is the `[Desktop Entry]`
header followed by exactly the five specified `key=value` lines, one per
line with nothing quoted, `Name` and `Exec` carrying the manager's
fields verbatim (`app_path` being the normalised constructor input) —
and parsing the content back recovers exactly those two values.
(Hypotheses: the interpolated values contain no newline, otherwise they
would span lines.) -/
theorem desktop_roundtrip (name path : Str) (hn : '\n' ∉ name) (hp : '\n' ∉ path) :
    splitNl (desktopContent name path) =
      [("[Desktop Entry]").data, ("Type=Application").data, ("Name=").data ++ name,
       ("Exec=").data ++ path, ("Terminal=false").data,
       ("X-GNOME-Autostart-enabled=true").data, []] ∧
    parseDesktop (desktopContent name path) = some (name, path) := by
  have hsplit : splitNl (desktopContent name path) = desktopLines name path ++ [[]] := by
    rw [desktopContent]
    exact splitNl_joinLines _ (noNl_desktopLines name path hn hp)
  have hlist : splitNl (desktopContent name path) =
      [("[Desktop Entry]").data, ("Type=Application").data, ("Name=").data ++ name,
       ("Exec=").data ++ path, ("Terminal=false").data,
       ("X-GNOME-Autostart-enabled=true").data, []] := by
    rw [hsplit]
    simp [desktopLines]
  refine ⟨hlist, ?_⟩
  unfold parseDesktop
  rw [hlist]
  dsimp only
  rw [if_pos (by decide)]
  simp only [stripPre_append]

theorem noNl_plistLines (name path : Str) (hn : '\n' ∉ name) (hp : '\n' ∉ path) :
    ∀ l ∈ plistLines name path, '\n' ∉ l := by
  intro l hl
  simp only [plistLines, List.mem_cons, List.not_mem_nil, or_false] at hl
  rcases hl with rfl | rfl | rfl | rfl | rfl | rfl | rfl | rfl | rfl | rfl | rfl | rfl | rfl | rfl
  · decide
  · decide
  · decide
  · decide
  · decide
  · intro hmem
    rcases List.mem_append.mp hmem with h | h
    · rcases List.mem_append.mp h with h' | h'
      · exact absurd h' (by decide)
      · exact hn h'
    · exact absurd h (by decide)
  · decide
  · decide
  · intro hmem
    rcases List.mem_append.mp hmem with h | h
    · rcases List.mem_append.mp h with h' | h'
      · exact absurd h' (by decide)
      · exact hp h'
    · exact absurd h (by decide)
  · decide
  · decide
  · decide
  · decide
  · decide

/-- **C7.** The rendered property-list content has exactly the
three-key structure the spec describes, and parsing it back recovers
`Label = app_name`, `ProgramArguments = [app_path]` and
`RunAtLoad = true`.  (`parsePlist` accepts precisely the document shape
written by `enable`: the XML prologue, a dict whose keys are `Label`,
`ProgramArguments` — a one-element array — and `RunAtLoad`, a boolean
leaf.)  Hypotheses: the interpolated values contain no newline. -/
theorem plist_roundtrip (name path : Str) (hn : '\n' ∉ name) (hp : '\n' ∉ path) :
    parsePlist (plistContent name path) = some (name, [path], true) := by
  have hsplit : splitNl (plistContent name path) = plistLines name path ++ [[]] := by
    rw [plistContent]
    exact splitNl_joinLines _ (noNl_plistLines name path hn hp)
  have hlist : splitNl (plistContent name path) =
      ("<?xml version=\"1.0\" encoding=\"UTF-8\"?>").data ::
      ("<!DOCTYPE plist PUBLIC \"-//Apple//DTD PLIST 1.0//EN\" \"http://www.apple.com/DTDs/PropertyList-1.0.dtd\">").data ::
      ("<plist version=\"1.0\">").data ::
      ("<dict>").data ::
      ("    <key>Label</key>").data ::
      (("    <string>").data ++ name ++ ("</string>").data) ::
      ("    <key>ProgramArguments</key>").data ::
      ("    <array>").data ::
      (("        <string>").data ++ path ++ ("</string>").data) ::
      ("    </array>").data ::
      ("    <key>RunAtLoad</key>").data ::
      ("    <true/>").data ::
      ("</dict>").data ::
      ("</plist>").data :: [[]] := by
    rw [hsplit]
    simp [plistLines]
  unfold parsePlist
  rw [hlist]
  dsimp only
  rw [if_pos (by decide)]
  simp only [List.append_assoc, stripPre_append, stripSuf_append]
  rw [if_pos (by decide)]

/-- Witness for C7 at the spec's concrete scenario values. -/
theorem plist_roundtrip_witness :
    '\n' ∉ ("Sample").data ∧ '\n' ∉ ("/usr/local/bin/sample").data ∧
      parsePlist (plistContent ("Sample").data ("/usr/local/bin/sample").data) =
        some (("Sample").data, [("/usr/local/bin/sample").data], true) :=
  ⟨by decide, by decide, plist_roundtrip _ _ (by decide) (by decide)⟩

/-- Witness for C8 at the spec's concrete scenario values. -/
theorem desktop_roundtrip_witness :
    '\n' ∉ ("Sample").data ∧ '\n' ∉ ("/usr/local/bin/sample").data ∧
      (splitNl (desktopContent ("Sample").data ("/usr/local/bin/sample").data) =
        [("[Desktop Entry]").data, ("Type=Application").data,
         ("Name=").data ++ ("Sample").data, ("Exec=").data ++ ("/usr/local/bin/sample").data,
         ("Terminal=false").data, ("X-GNOME-Autostart-enabled=true").data, []] ∧
       parseDesktop (desktopContent ("Sample").data ("/usr/local/bin/sample").data) =
         some (("Sample").data, ("/usr/local/bin/sample").data)) :=
  ⟨by decide, by decide, desktop_roundtrip _ _ (by decide) (by decide)⟩

/-- Witness for C1 at a concrete Linux manager over an empty filesystem. -/
theorem enable_then_is_enabled_witness :
    supported (Manager.mk ("App").data ("/app").data "Linux").system ∧
      enableNominal ⟨"Linux", ("/h").data, [], ("/").data, true, true, true, true, true, true⟩ ∧
      ((enable ⟨("App").data, ("/app").data, "Linux"⟩
          ⟨"Linux", ("/h").data, [], ("/").data, true, true, true, true, true, true⟩
          ⟨⟨[], []⟩, []⟩).1 = true ∧
        isEnabledValue ⟨("App").data, ("/app").data, "Linux"⟩
          ⟨"Linux", ("/h").data, [], ("/").data, true, true, true, true, true, true⟩
          (enable ⟨("App").data, ("/app").data, "Linux"⟩
            ⟨"Linux", ("/h").data, [], ("/").data, true, true, true, true, true, true⟩
            ⟨⟨[], []⟩, []⟩).2.1 = some (some true)) :=
  ⟨by decide, by decide,
    enable_then_is_enabled ⟨("App").data, ("/app").data, "Linux"⟩
      ⟨"Linux", ("/h").data, [], ("/").data, true, true, true, true, true, true⟩
      ⟨⟨[], []⟩, []⟩ (by decide) (by decide)⟩

/-- Witness for C6 at a concrete Darwin manager over an empty filesystem. -/
theorem enable_twice_idempotent_witness :
    supported (Manager.mk ("App").data ("/app").data "Darwin").system ∧
      enableNominal ⟨"Darwin", ("/h").data, [], ("/").data, true, true, true, true, true, true⟩ ∧
      ((enable ⟨("App").data, ("/app").data, "Darwin"⟩
          ⟨"Darwin", ("/h").data, [], ("/").data, true, true, true, true, true, true⟩
          (enable ⟨("App").data, ("/app").data, "Darwin"⟩
            ⟨"Darwin", ("/h").data, [], ("/").data, true, true, true, true, true, true⟩
            ⟨⟨[], []⟩, []⟩).2.1).1 = true ∧
        (enable ⟨("App").data, ("/app").data, "Darwin"⟩
          ⟨"Darwin", ("/h").data, [], ("/").data, true, true, true, true, true, true⟩
          (enable ⟨("App").data, ("/app").data, "Darwin"⟩
            ⟨"Darwin", ("/h").data, [], ("/").data, true, true, true, true, true, true⟩
            ⟨⟨[], []⟩, []⟩).2.1).2.1.fs =
          (enable ⟨("App").data, ("/app").data, "Darwin"⟩
            ⟨"Darwin", ("/h").data, [], ("/").data, true, true, true, true, true, true⟩
            ⟨⟨[], []⟩, []⟩).2.1.fs ∧
        (enable ⟨("App").data, ("/app").data, "Darwin"⟩
          ⟨"Darwin", ("/h").data, [], ("/").data, true, true, true, true, true, true⟩
          ⟨⟨[], []⟩, []⟩).2.1.fs.files.countP
            (fun f => f.1 = artifactPath ⟨("App").data, ("/app").data, "Darwin"⟩
              ⟨"Darwin", ("/h").data, [], ("/").data, true, true, true, true, true, true⟩) = 1) :=
  ⟨by decide, by decide,
    enable_twice_idempotent ⟨("App").data, ("/app").data, "Darwin"⟩
      ⟨"Darwin", ("/h").data, [], ("/").data, true, true, true, true, true, true⟩
      ⟨⟨[], []⟩, []⟩ (by decide) (by decide)⟩

end SM
